import Mathlib

/-!
# CSharpVCpp: the C++ stress benchmark (`main.cpp`)

A shallow embedding of `main.cpp`.  Machine integers are `Int`/`Nat` with an
explicit reduction modulo `2 ^ 64` where the source computes in
`unsigned long long`.  What the program reads from its surroundings (results of
the random generator and of the standard distributions, the outcome of
`malloc`, the digest computed by OpenSSL, an exception raised inside a
workload) is an explicit input of the function that reads it.  What the
program does to its surroundings (console lines, heap calls, stores into the
buffer, sleeps, workload calls) is recorded as a list of `Event`s in program
order.
-/

namespace CSharpVCpp

/-! ## Constants (main.cpp, lines 21-25) -/

/-- The constant `MIN_ALLOCATION_SIZE = 1 * 1024 * 1024` (an `int`). -/
def MIN_ALLOCATION_SIZE : Int := 1 * 1024 * 1024

/-- The constant `MAX_ALLOCATION_SIZE = 20 * 1024 * 1024` (an `int`). -/
def MAX_ALLOCATION_SIZE : Int := 20 * 1024 * 1024

/-- The constant `ITERATIONS = 500`. -/
def ITERATIONS : Nat := 500

/-- The value `ULLONG_MAX` of a 64-bit `unsigned long long`. -/
def ULLONG_MAX : Nat := 2 ^ 64 - 1

/-- Membership in the range of a 32-bit signed `int`. -/
def fitsInt32 (v : Int) : Prop := -(2 : Int) ^ 31 ≤ v ∧ v < (2 : Int) ^ 31

instance (v : Int) : Decidable (fitsInt32 v) := by
  unfold fitsInt32; exact inferInstance

/-! ## Allocation patterns (main.cpp, lines 27-44) -/

/-- The enumeration `AllocationType`. -/
inductive AllocationType where
  | Sequential
  | Random
  | Burst
  deriving DecidableEq, Repr

/-- The record `AllocationPattern`. -/
structure AllocationPattern where
  name : String
  type : AllocationType
  deriving DecidableEq, Repr

/-- The table `allocationPatterns`. -/
def allocationPatterns : List AllocationPattern :=
  [⟨"Sequential", AllocationType.Sequential⟩,
   ⟨"Random", AllocationType.Random⟩,
   ⟨"Burst", AllocationType.Burst⟩]

/-! ## naiveFibonacci (main.cpp, lines 50-53) -/

/-- The function `naiveFibonacci`: `if (n <= 1) return n;` converts the `int`
to `unsigned long long` (reduction modulo `2 ^ 64`), the recursive case adds in
`unsigned long long`. -/
def naiveFibonacci (n : Int) : Nat :=
  if n ≤ 1 then (n % (2 : Int) ^ 64).toNat
  else (naiveFibonacci (n - 1) + naiveFibonacci (n - 2)) % 2 ^ 64
termination_by n.toNat
decreasing_by
  all_goals simp_wf
  all_goals omega

/-! ## The surroundings of the program -/

/-- A workload started by `performAdvancedCpuTasks`, with its arguments. -/
inductive Workload where
  | matrixMultiplication (dimension : Int)
  | sha256Hash (buffer : List Nat) (size : Int)
  | fibonacci (n : Int)
  deriving DecidableEq, Repr

/-- The observable steps of a worker thread, in program order. -/
inductive Event where
  /-- A line written to `std::cout` (ended by `std::endl`). -/
  | cout (line : String)
  /-- A line written to `std::cerr` (ended by `std::endl`). -/
  | cerr (line : String)
  /-- A call of `getAllocationSize` and the size it returned. -/
  | sizeDrawn (size : Int)
  /-- A call `std::malloc(size)`; `ok` is false when it returned null. -/
  | malloc (size : Int) (ok : Bool)
  /-- The store `buffer[index] = byte`. -/
  | store (index : Nat) (byte : Nat)
  /-- The start of a workload routine. -/
  | run (w : Workload)
  /-- A call `std::free(buffer)`. -/
  | free
  /-- A call of `simulateAllocationPattern`; `ms` is the argument of its
  `sleep_for`, `none` when it does not sleep. -/
  | delay (ms : Option Nat)
  deriving DecidableEq, Repr

/-- What a call that may raise an exception did: the events up to its end, and
the `what()` text of the exception that left it, if any.  Every exception that
the routines of this program can raise (`std::bad_alloc`, and what the
containers, `std::random_device` and the streams raise) derives from
`std::exception`. -/
structure Outcome where
  events : List Event
  thrown : Option String
  deriving DecidableEq, Repr

/-- The behaviour of the libraries the program links against. -/
structure Runtime where
  /-- The text `std::bad_alloc().what()`. -/
  badAllocWhat : String
  /-- The OpenSSL routine `SHA256(buffer, size, hash)`: the bytes it stores in `hash`. -/
  SHA256 : List Nat → Int → List Nat

/-- The constant `SHA256_DIGEST_LENGTH` of OpenSSL. -/
def SHA256_DIGEST_LENGTH : Nat := 32

/-- The result of `std::uniform_int_distribution<int>(a, b)` applied to the
generator.  The C++ standard fixes the possible results, the integers `i` with
`a ≤ i ≤ b`, each with probability `1 / (b - a + 1)`; `k` is the index the
generator state selects among these `b - a + 1` values. -/
def uniform_int_distribution (a b : Int) (k : Nat) : Int :=
  a + (k : Int) % (b - a + 1)

/-- The exact value of the `double` with significand `m` and binary exponent
`-e`.  With `m < 2 ^ 53` and `e ≤ 1074` these are the finite non-negative
`double`s below `2 ^ 53`, among them every `double` in `[0, 1)`. -/
def doubleValue (m e : Nat) : ℚ := (m : ℚ) / 2 ^ e

/-- The `double` denoted by the literal `0.33`: the multiple of `2 ^ (-54)`
nearest to `33 / 100`. -/
def double_0_33 : ℚ := 5944751508129055 / 18014398509481984

/-- The `double` denoted by the literal `0.66`: the multiple of `2 ^ (-53)`
nearest to `66 / 100`. -/
def double_0_66 : ℚ := 5944751508129055 / 9007199254740992

/-! ## getAllocationSize (main.cpp, lines 56-59) -/

/-- The function `getAllocationSize`; `k` is the choice of the generator. -/
def getAllocationSize (k : Nat) : Int :=
  uniform_int_distribution MIN_ALLOCATION_SIZE MAX_ALLOCATION_SIZE k

/-! ## simulateAllocationPattern (main.cpp, lines 62-74) -/

/-- The function `simulateAllocationPattern`: the number of milliseconds passed
to `sleep_for`, or `none` when no sleep is requested.  `x` is the value `rng()`
yields; it is read in the `Random` case only. -/
def simulateAllocationPattern (type : AllocationType) (x : Nat) : Option Nat :=
  match type with
  | AllocationType.Sequential => some 10
  | AllocationType.Random => some (x % 15 + 5)
  | AllocationType.Burst => none

/-- The number of 32-bit generator outputs `x` for which the `Random` pattern
sleeps `d` milliseconds. -/
def outputsWithDelay (d : Nat) : Nat :=
  Nat.count (fun x => simulateAllocationPattern AllocationType.Random x = some d) (2 ^ 32)

/-! ## performMatrixMultiplication (main.cpp, lines 77-114) -/

/-- What happens inside one call of `performMatrixMultiplication`.  The entries
of the matrices are random `double`s and their product is computed in floating
point; of that computation the function only uses whether it was reached and
the value of `checksum`, which are taken as given here. -/
structure MatrixRun where
  /-- The exception raised while the matrices and the generator are set up
  (lines 79-83), if any. -/
  thrown : Option String
  /-- The exact value of the `double` named `checksum` (line 103-108). -/
  checksum : ℚ

/-- The function `performMatrixMultiplication`. -/
def performMatrixMultiplication (dimension : Int) (m : MatrixRun) : Outcome :=
  match m.thrown with
  | some what => ⟨[Event.run (Workload.matrixMultiplication dimension)], some what⟩
  | none =>
    if m.checksum = -1 then
      ⟨[Event.run (Workload.matrixMultiplication dimension),
        Event.cout "Matrix multiplication checksum: -1"], none⟩
    else
      ⟨[Event.run (Workload.matrixMultiplication dimension)], none⟩

/-! ## performSha256Hash (main.cpp, lines 117-131) -/

/-- The array `unsigned char hash[SHA256_DIGEST_LENGTH]` after the call of
`SHA256`: `SHA256_DIGEST_LENGTH` elements, each an `unsigned char`. -/
def sha256Digest (rt : Runtime) (buffer : List Nat) (size : Int) : List Nat :=
  (List.range SHA256_DIGEST_LENGTH).map (fun k => (rt.SHA256 buffer size).getD k 0 % 256)

/-- The loop `for (unsigned char i : hash) checksum += i;` in
`unsigned long long`. -/
def sha256Checksum (hash : List Nat) : Nat :=
  hash.foldl (fun checksum i => (checksum + i) % 2 ^ 64) 0

/-- The function `performSha256Hash`. -/
def performSha256Hash (rt : Runtime) (buffer : List Nat) (size : Int) : Outcome :=
  let hash := sha256Digest rt buffer size
  let checksum := sha256Checksum hash
  if checksum = ULLONG_MAX then
    ⟨[Event.run (Workload.sha256Hash buffer size),
      Event.cout ("SHA-256 checksum: " ++ toString checksum)], none⟩
  else
    ⟨[Event.run (Workload.sha256Hash buffer size)], none⟩

/-! ## performAdvancedCpuTasks (main.cpp, lines 134-150) -/

/-- What `performAdvancedCpuTasks` reads from its surroundings. -/
structure TaskInputs where
  /-- The exact value of the `double` named `random`, the result of `dist(rng)`. -/
  random : ℚ
  /-- The run of `performMatrixMultiplication`, should it be called. -/
  matrix : MatrixRun

/-- The function `performAdvancedCpuTasks`. -/
def performAdvancedCpuTasks (rt : Runtime) (inp : TaskInputs) (buffer : List Nat)
    (size : Int) : Outcome :=
  let random := inp.random
  if random < double_0_33 then
    performMatrixMultiplication 300 inp.matrix
  else if random < double_0_66 then
    performSha256Hash rt buffer size
  else
    let fibResult := naiveFibonacci 35
    if fibResult = 0 then
      ⟨[Event.run (Workload.fibonacci 35),
        Event.cout ("Fibonacci result: " ++ toString fibResult)], none⟩
    else
      ⟨[Event.run (Workload.fibonacci 35)], none⟩

/-- The workloads started in a trace, in order. -/
def workloadsRun (t : List Event) : List Workload :=
  t.filterMap (fun ev => match ev with
    | Event.run w => some w
    | _ => none)

/-! ## threadWork (main.cpp, lines 153-207) -/

/-- What one iteration of the loop of `threadWork` reads from its surroundings. -/
structure IterationInputs where
  /-- The choice of the generator in `getAllocationSize`. -/
  sizeChoice : Nat
  /-- Whether `std::malloc` returns a non-null pointer. -/
  mallocOk : Bool
  /-- The choice of the generator in the `j`-th call `byteDist(rng)`. -/
  byteChoice : Nat → Nat
  /-- The inputs of `performAdvancedCpuTasks`. -/
  task : TaskInputs
  /-- The value of `rng()` in `simulateAllocationPattern`. -/
  delayDraw : Nat

/-- The contents of the buffer after the loop of lines 179-181:
`buffer[j] = static_cast<unsigned char>(byteDist(rng))`. -/
def filledBuffer (allocationSize : Int) (byteChoice : Nat → Nat) : List Nat :=
  (List.range allocationSize.toNat).map
    (fun j => (uniform_int_distribution 0 255 (byteChoice j) % 256).toNat)

/-- The stores of the loop of lines 179-181. -/
def fillEvents (allocationSize : Int) (byteChoice : Nat → Nat) : List Event :=
  (List.range allocationSize.toNat).map
    (fun j => Event.store j (uniform_int_distribution 0 255 (byteChoice j) % 256).toNat)

/-- The `try` block, lines 170-185.  The first component tells whether
`buffer` is non-null when the block is left. -/
def tryBlock (rt : Runtime) (allocationSize : Int) (inp : IterationInputs) :
    Bool × Outcome :=
  if inp.mallocOk = false then
    (false, ⟨[Event.malloc allocationSize false], some rt.badAllocWhat⟩)
  else
    let buffer := filledBuffer allocationSize inp.byteChoice
    let task := performAdvancedCpuTasks rt inp.task buffer allocationSize
    (true, ⟨Event.malloc allocationSize true :: (fillEvents allocationSize inp.byteChoice
      ++ task.events), task.thrown⟩)

/-- The handler `catch (const std::exception &e)`, lines 186-190. -/
def catchBlock (threadId : Int) (thrown : Option String) : List Event :=
  match thrown with
  | some what =>
    [Event.cerr ("Thread " ++ toString threadId ++ " encountered an error: " ++ what)]
  | none => []

/-- The block labelled `finally:`, lines 191-197: `if (buffer) std::free(buffer);`. -/
def finallyBlock (buffer : Bool) : List Event :=
  if buffer then [Event.free] else []

/-- The body of the `for` loop of `threadWork`, lines 167-200. -/
def iteration (rt : Runtime) (threadId : Int) (type : AllocationType)
    (inp : IterationInputs) : List Event :=
  let allocationSize := getAllocationSize inp.sizeChoice
  let body := tryBlock rt allocationSize inp
  Event.sizeDrawn allocationSize ::
    (body.2.events ++ (catchBlock threadId body.2.thrown ++ (finallyBlock body.1 ++
      [Event.delay (simulateAllocationPattern type inp.delayDraw)])))

/-- The loop `for (int i = 0; i < ITERATIONS; ++i)`, from the value `i` on. -/
def threadLoop (rt : Runtime) (threadId : Int) (type : AllocationType)
    (inputs : Nat → IterationInputs) (i : Nat) : List Event :=
  if i < ITERATIONS then
    iteration rt threadId type (inputs i) ++ threadLoop rt threadId type inputs (i + 1)
  else []
termination_by ITERATIONS - i

/-- The pattern chosen at line 158:
`allocationPatterns[rng() % allocationPatterns.size()]`. -/
def selectPattern (patternDraw : Nat) : AllocationPattern :=
  allocationPatterns.get ⟨patternDraw % allocationPatterns.length,
    Nat.mod_lt _ (by decide)⟩

/-- The function `threadWork`.  `patternDraw` is the value of `rng()` at line
158, `inputs i` is what iteration `i` reads. -/
def threadWork (rt : Runtime) (threadId : Int) (patternDraw : Nat)
    (inputs : Nat → IterationInputs) : List Event :=
  let currentPattern := selectPattern patternDraw
  Event.cout ("Thread " ++ toString threadId ++ " started with Allocation Pattern: "
      ++ currentPattern.name) ::
    (threadLoop rt threadId currentPattern.type inputs 0 ++
      [Event.cout ("Thread " ++ toString threadId ++ " completed.")])

/-! ## Reading a trace -/

/-- The lines written to `std::cout` in a trace, in order. -/
def coutLines (t : List Event) : List String :=
  t.filterMap (fun ev => match ev with
    | Event.cout line => some line
    | _ => none)

/-- The lines written to `std::cerr` in a trace, in order. -/
def cerrLines (t : List Event) : List String :=
  t.filterMap (fun ev => match ev with
    | Event.cerr line => some line
    | _ => none)

/-- The sizes returned by the calls of `getAllocationSize` in a trace. -/
def sizesDrawn (t : List Event) : List Int :=
  t.filterMap (fun ev => match ev with
    | Event.sizeDrawn size => some size
    | _ => none)

/-- The calls of `std::malloc` in a trace: requested size and success. -/
def mallocCalls (t : List Event) : List (Int × Bool) :=
  t.filterMap (fun ev => match ev with
    | Event.malloc size ok => some (size, ok)
    | _ => none)

/-- The stores into the buffer in a trace: index and byte. -/
def storesDone (t : List Event) : List (Nat × Nat) :=
  t.filterMap (fun ev => match ev with
    | Event.store index byte => some (index, byte)
    | _ => none)

/-- The calls of `simulateAllocationPattern` in a trace, each with its sleep. -/
def delaysDone (t : List Event) : List (Option Nat) :=
  t.filterMap (fun ev => match ev with
    | Event.delay ms => some ms
    | _ => none)

/-- The number of calls of `std::free` in a trace. -/
def freeCalls (t : List Event) : Nat := t.count Event.free

/-- The number of buffers acquired in a trace and not yet freed at its end:
successful `std::malloc` calls minus `std::free` calls. -/
def heldBuffers (t : List Event) : Int :=
  (((mallocCalls t).filter (fun c => c.2)).length : Int) - (freeCalls t : Int)

/-- The events of an iteration up to the end of the `catch` handler, lines
167-190: what precedes the block labelled `finally:`. -/
def iterationHead (rt : Runtime) (threadId : Int) (inp : IterationInputs) : List Event :=
  let allocationSize := getAllocationSize inp.sizeChoice
  let body := tryBlock rt allocationSize inp
  Event.sizeDrawn allocationSize :: (body.2.events ++ catchBlock threadId body.2.thrown)

/-! ## Sample inputs -/

/-- A runtime whose `SHA256` stores thirty-two bytes `0xff`. -/
def sampleRuntime : Runtime :=
  ⟨"std::bad_alloc", fun _ _ => List.replicate 32 255⟩

/-- Inputs of `performAdvancedCpuTasks` with `random = 0.5`. -/
def sampleTask : TaskInputs := ⟨doubleValue 1 1, ⟨none, 0⟩⟩

/-- Inputs of an iteration in which `std::malloc` returns null. -/
def sampleFailure : IterationInputs := ⟨7, false, fun _ => 0, sampleTask, 11⟩

/-! # Properties -/

/-! ## naiveFibonacci -/

theorem naiveFibonacci_of_le_one (n : Int) (h : n ≤ 1) :
    naiveFibonacci n = (n % (2 : Int) ^ 64).toNat := by
  rw [naiveFibonacci]
  simp [h]

theorem naiveFibonacci_of_one_lt (n : Int) (h : 1 < n) :
    naiveFibonacci n = (naiveFibonacci (n - 1) + naiveFibonacci (n - 2)) % 2 ^ 64 := by
  rw [naiveFibonacci]
  simp [not_le.mpr h]

/-- On non-negative arguments `naiveFibonacci` is the Fibonacci sequence reduced
modulo `2 ^ 64`. -/
theorem naiveFibonacci_natCast (k : Nat) :
    naiveFibonacci (k : Int) = Nat.fib k % 2 ^ 64 ∧
      naiveFibonacci ((k : Int) + 1) = Nat.fib (k + 1) % 2 ^ 64 := by
  induction k with
  | zero =>
    constructor
    · rw [naiveFibonacci_of_le_one _ (by norm_num)]; rfl
    · rw [naiveFibonacci_of_le_one _ (by norm_num)]; rfl
  | succ k ih =>
    refine ⟨by simpa using ih.2, ?_⟩
    have h1 : (1 : Int) < ((k + 1 : Nat) : Int) + 1 := by push_cast; omega
    rw [naiveFibonacci_of_one_lt _ h1]
    have e1 : ((k + 1 : Nat) : Int) + 1 - 1 = (k : Int) + 1 := by push_cast; ring
    have e2 : ((k + 1 : Nat) : Int) + 1 - 2 = (k : Int) := by push_cast; ring
    rw [e1, e2, ih.1, ih.2, Nat.fib_add_two, ← Nat.add_mod, Nat.add_comm]

theorem naiveFibonacci_35 : naiveFibonacci 35 = 9227465 := by
  have h := (naiveFibonacci_natCast 35).1
  have hf : Nat.fib 35 = 9227465 := by norm_num
  rw [hf] at h
  simpa using h

/-! ## Size bounds -/

theorem MIN_ALLOCATION_SIZE_eq : MIN_ALLOCATION_SIZE = 1048576 := by decide

theorem MAX_ALLOCATION_SIZE_eq : MAX_ALLOCATION_SIZE = 20971520 := by decide

theorem uniform_int_distribution_mem (a b : Int) (k : Nat) (h : a ≤ b) :
    a ≤ uniform_int_distribution a b k ∧ uniform_int_distribution a b k ≤ b := by
  unfold uniform_int_distribution
  have hpos : (0 : Int) < b - a + 1 := by omega
  have h0 := Int.emod_nonneg (k : Int) (ne_of_gt hpos)
  have h1 := Int.emod_lt_of_pos (k : Int) hpos
  constructor <;> omega

theorem getAllocationSize_mem (k : Nat) :
    1048576 ≤ getAllocationSize k ∧ getAllocationSize k ≤ 20971520 := by
  have h := uniform_int_distribution_mem MIN_ALLOCATION_SIZE MAX_ALLOCATION_SIZE k (by decide)
  rw [MIN_ALLOCATION_SIZE_eq, MAX_ALLOCATION_SIZE_eq] at h
  exact h

/-! ## The digest checksum -/

theorem checksum_foldl (l : List Nat) (c : Nat) (h : c + l.sum < 2 ^ 64) :
    l.foldl (fun checksum i => (checksum + i) % 2 ^ 64) c = c + l.sum := by
  induction l generalizing c with
  | nil => simp
  | cons x xs ih =>
    simp only [List.foldl_cons, List.sum_cons] at h ⊢
    have hx : (c + x) % 2 ^ 64 = c + x := Nat.mod_eq_of_lt (by omega)
    rw [hx, ih (c + x) (by omega)]
    omega

theorem sha256Digest_length (rt : Runtime) (buffer : List Nat) (size : Int) :
    (sha256Digest rt buffer size).length = 32 := by
  simp [sha256Digest, SHA256_DIGEST_LENGTH]

theorem sha256Digest_sum_le (rt : Runtime) (buffer : List Nat) (size : Int) :
    (sha256Digest rt buffer size).sum ≤ 8160 := by
  have h := List.sum_le_card_nsmul (sha256Digest rt buffer size) 255 (by
    intro x hx
    simp only [sha256Digest, List.mem_map] at hx
    obtain ⟨k, -, rfl⟩ := hx
    omega)
  rw [sha256Digest_length] at h
  simpa using h

theorem sha256Checksum_digest (rt : Runtime) (buffer : List Nat) (size : Int) :
    sha256Checksum (sha256Digest rt buffer size) = (sha256Digest rt buffer size).sum := by
  have h := sha256Digest_sum_le rt buffer size
  unfold sha256Checksum
  rw [checksum_foldl _ 0 (by norm_num; omega)]
  simp

theorem sha256Checksum_ne_max (rt : Runtime) (buffer : List Nat) (size : Int) :
    sha256Checksum (sha256Digest rt buffer size) ≠ ULLONG_MAX := by
  have h := sha256Digest_sum_le rt buffer size
  rw [sha256Checksum_digest]
  unfold ULLONG_MAX
  norm_num
  omega

theorem performSha256Hash_eq (rt : Runtime) (buffer : List Nat) (size : Int) :
    performSha256Hash rt buffer size =
      ⟨[Event.run (Workload.sha256Hash buffer size)], none⟩ := by
  unfold performSha256Hash
  simp only [if_neg (sha256Checksum_ne_max rt buffer size)]

/-! ## The delay of the Random pattern -/

theorem outputsWithDelay_add_five (r : Nat) (h : r < 15) :
    outputsWithDelay (r + 5) = 286331153 + if r = 0 then 1 else 0 := by
  have hc := @Nat.count_modEq_card (2 ^ 32) 15 (by norm_num) r
  simp only [Nat.ModEq, Nat.mod_eq_of_lt h] at hc
  unfold outputsWithDelay
  simp only [simulateAllocationPattern, Option.some.injEq, Nat.add_right_cancel_iff]
  rw [hc]
  norm_num

/-! ## The thresholds of the workload selection -/

theorem threshold_0_33_nat (m e : Nat) (hm : m < 2 ^ 53) :
    m * 18014398509481984 < 5944751508129055 * 2 ^ e ↔ m * 100 < 33 * 2 ^ e := by
  by_cases he : e ≤ 54
  · interval_cases e <;> norm_num <;> omega
  · have hp : 2 ^ 55 ≤ 2 ^ e := Nat.pow_le_pow_right (by norm_num) (by omega)
    generalize 2 ^ e = P at hp ⊢
    norm_num at hm hp
    omega

theorem threshold_0_66_nat (m e : Nat) (hm : m < 2 ^ 53) :
    m * 9007199254740992 < 5944751508129055 * 2 ^ e ↔ m * 100 < 66 * 2 ^ e := by
  by_cases he : e ≤ 53
  · interval_cases e <;> norm_num <;> omega
  · have hp : 2 ^ 54 ≤ 2 ^ e := Nat.pow_le_pow_right (by norm_num) (by omega)
    generalize 2 ^ e = P at hp ⊢
    norm_num at hm hp
    omega

/-- No `double` lies between `33 / 100` and the `double` written `0.33`. -/
theorem doubleValue_lt_0_33 (m e : Nat) (hm : m < 2 ^ 53) :
    doubleValue m e < double_0_33 ↔ doubleValue m e < 33 / 100 := by
  have hp : (0 : ℚ) < 2 ^ e := by positivity
  unfold doubleValue double_0_33
  rw [div_lt_div_iff₀ hp (by norm_num), div_lt_div_iff₀ hp (by norm_num)]
  have h := threshold_0_33_nat m e hm
  constructor
  · intro h1
    have h2 : m * 18014398509481984 < 5944751508129055 * 2 ^ e := by exact_mod_cast h1
    exact_mod_cast h.mp h2
  · intro h1
    have h2 : m * 100 < 33 * 2 ^ e := by exact_mod_cast h1
    exact_mod_cast h.mpr h2

/-- No `double` lies between `66 / 100` and the `double` written `0.66`. -/
theorem doubleValue_lt_0_66 (m e : Nat) (hm : m < 2 ^ 53) :
    doubleValue m e < double_0_66 ↔ doubleValue m e < 66 / 100 := by
  have hp : (0 : ℚ) < 2 ^ e := by positivity
  unfold doubleValue double_0_66
  rw [div_lt_div_iff₀ hp (by norm_num), div_lt_div_iff₀ hp (by norm_num)]
  have h := threshold_0_66_nat m e hm
  constructor
  · intro h1
    have h2 : m * 9007199254740992 < 5944751508129055 * 2 ^ e := by exact_mod_cast h1
    exact_mod_cast h.mp h2
  · intro h1
    have h2 : m * 100 < 66 * 2 ^ e := by exact_mod_cast h1
    exact_mod_cast h.mpr h2

/-! ## The workloads -/

/-- The two possible traces of `performMatrixMultiplication`. -/
theorem performMatrixMultiplication_cases (dimension : Int) (m : MatrixRun) :
    ((performMatrixMultiplication dimension m).events =
        [Event.run (Workload.matrixMultiplication dimension)] ∨
      (performMatrixMultiplication dimension m).events =
        [Event.run (Workload.matrixMultiplication dimension),
          Event.cout "Matrix multiplication checksum: -1"]) ∧
    ((performMatrixMultiplication dimension m).thrown = none ∨
      ∃ what, (performMatrixMultiplication dimension m).thrown = some what) := by
  unfold performMatrixMultiplication
  cases m.thrown with
  | some what => simp
  | none =>
    by_cases hc : m.checksum = -1
    · simp [hc]
    · simp [hc]

theorem performAdvancedCpuTasks_matrix (rt : Runtime) (inp : TaskInputs) (buffer : List Nat)
    (size : Int) (h : inp.random < double_0_33) :
    performAdvancedCpuTasks rt inp buffer size = performMatrixMultiplication 300 inp.matrix := by
  unfold performAdvancedCpuTasks
  simp only [if_pos h]

theorem performAdvancedCpuTasks_sha (rt : Runtime) (inp : TaskInputs) (buffer : List Nat)
    (size : Int) (h1 : ¬ inp.random < double_0_33) (h2 : inp.random < double_0_66) :
    performAdvancedCpuTasks rt inp buffer size =
      ⟨[Event.run (Workload.sha256Hash buffer size)], none⟩ := by
  unfold performAdvancedCpuTasks
  simp only [if_neg h1, if_pos h2, performSha256Hash_eq]

theorem performAdvancedCpuTasks_fib (rt : Runtime) (inp : TaskInputs) (buffer : List Nat)
    (size : Int) (h1 : ¬ inp.random < double_0_33) (h2 : ¬ inp.random < double_0_66) :
    performAdvancedCpuTasks rt inp buffer size =
      ⟨[Event.run (Workload.fibonacci 35)], none⟩ := by
  unfold performAdvancedCpuTasks
  simp only [if_neg h1, if_neg h2, naiveFibonacci_35]
  simp

/-- The workload named by the two comparisons of `performAdvancedCpuTasks`. -/
theorem performAdvancedCpuTasks_cases (rt : Runtime) (inp : TaskInputs) (buffer : List Nat)
    (size : Int) :
    ∃ w, w = (if inp.random < double_0_33 then Workload.matrixMultiplication 300
          else if inp.random < double_0_66 then Workload.sha256Hash buffer size
          else Workload.fibonacci 35) ∧
      ((performAdvancedCpuTasks rt inp buffer size).events = [Event.run w] ∨
        (performAdvancedCpuTasks rt inp buffer size).events =
          [Event.run w, Event.cout "Matrix multiplication checksum: -1"]) ∧
      ((performAdvancedCpuTasks rt inp buffer size).thrown = none ∨
        ∃ what, (performAdvancedCpuTasks rt inp buffer size).thrown = some what) := by
  by_cases h1 : inp.random < double_0_33
  · rw [performAdvancedCpuTasks_matrix rt inp buffer size h1]
    exact ⟨_, by simp [h1], performMatrixMultiplication_cases 300 inp.matrix⟩
  · by_cases h2 : inp.random < double_0_66
    · rw [performAdvancedCpuTasks_sha rt inp buffer size h1 h2]
      exact ⟨_, by simp [h1, h2], Or.inl rfl, Or.inl rfl⟩
    · rw [performAdvancedCpuTasks_fib rt inp buffer size h1 h2]
      exact ⟨_, by simp [h1, h2], Or.inl rfl, Or.inl rfl⟩

theorem workloadsRun_performAdvancedCpuTasks (rt : Runtime) (inp : TaskInputs)
    (buffer : List Nat) (size : Int) :
    workloadsRun (performAdvancedCpuTasks rt inp buffer size).events =
      [if inp.random < double_0_33 then Workload.matrixMultiplication 300
        else if inp.random < double_0_66 then Workload.sha256Hash buffer size
        else Workload.fibonacci 35] := by
  obtain ⟨w, hw, hev, -⟩ := performAdvancedCpuTasks_cases rt inp buffer size
  rcases hev with hev | hev <;> rw [hev, ← hw] <;> simp [workloadsRun]

/-! ## One iteration of the loop -/

theorem fillEvents_filterMap {α : Type} (f : Event → Option α)
    (hf : ∀ j v, f (Event.store j v) = none) (allocationSize : Int) (byteChoice : Nat → Nat) :
    (fillEvents allocationSize byteChoice).filterMap f = [] := by
  rw [List.filterMap_eq_nil_iff]
  intro ev hev
  simp only [fillEvents, List.mem_map] at hev
  obtain ⟨j, -, rfl⟩ := hev
  exact hf j _

theorem fillEvents_count_free (allocationSize : Int) (byteChoice : Nat → Nat) :
    (fillEvents allocationSize byteChoice).count Event.free = 0 := by
  rw [List.count_eq_zero]
  intro hev
  simp only [fillEvents, List.mem_map] at hev
  obtain ⟨j, -, h⟩ := hev
  exact Event.noConfusion h

/-- The trace of an iteration in which `std::malloc` returns null. -/
theorem iteration_of_malloc_null (rt : Runtime) (threadId : Int) (type : AllocationType)
    (inp : IterationInputs) (h : inp.mallocOk = false) :
    iteration rt threadId type inp =
      [Event.sizeDrawn (getAllocationSize inp.sizeChoice),
       Event.malloc (getAllocationSize inp.sizeChoice) false,
       Event.cerr ("Thread " ++ toString threadId ++ " encountered an error: "
         ++ rt.badAllocWhat),
       Event.delay (simulateAllocationPattern type inp.delayDraw)] := by
  simp [iteration, tryBlock, h, catchBlock, finallyBlock]

/-- The trace of an iteration in which `std::malloc` succeeds. -/
theorem iteration_of_malloc_ok (rt : Runtime) (threadId : Int) (type : AllocationType)
    (inp : IterationInputs) (h : inp.mallocOk = true) :
    iteration rt threadId type inp =
      Event.sizeDrawn (getAllocationSize inp.sizeChoice) ::
      Event.malloc (getAllocationSize inp.sizeChoice) true ::
      (fillEvents (getAllocationSize inp.sizeChoice) inp.byteChoice ++
        ((performAdvancedCpuTasks rt inp.task
            (filledBuffer (getAllocationSize inp.sizeChoice) inp.byteChoice)
            (getAllocationSize inp.sizeChoice)).events ++
          (catchBlock threadId (performAdvancedCpuTasks rt inp.task
            (filledBuffer (getAllocationSize inp.sizeChoice) inp.byteChoice)
            (getAllocationSize inp.sizeChoice)).thrown ++
          [Event.free, Event.delay (simulateAllocationPattern type inp.delayDraw)]))) := by
  simp [iteration, tryBlock, h, finallyBlock]

theorem iteration_eq_head (rt : Runtime) (threadId : Int) (type : AllocationType)
    (inp : IterationInputs) :
    iteration rt threadId type inp =
      iterationHead rt threadId inp ++
        ((if inp.mallocOk = true then [Event.free] else []) ++
          [Event.delay (simulateAllocationPattern type inp.delayDraw)]) := by
  cases h : inp.mallocOk <;> simp [iteration, iterationHead, tryBlock, h, finallyBlock]

theorem iterationHead_of_malloc_null (rt : Runtime) (threadId : Int)
    (inp : IterationInputs) (h : inp.mallocOk = false) :
    iterationHead rt threadId inp =
      [Event.sizeDrawn (getAllocationSize inp.sizeChoice),
       Event.malloc (getAllocationSize inp.sizeChoice) false,
       Event.cerr ("Thread " ++ toString threadId ++ " encountered an error: "
         ++ rt.badAllocWhat)] := by
  simp [iterationHead, tryBlock, h, catchBlock]

theorem iterationHead_of_malloc_ok (rt : Runtime) (threadId : Int)
    (inp : IterationInputs) (h : inp.mallocOk = true) :
    iterationHead rt threadId inp =
      Event.sizeDrawn (getAllocationSize inp.sizeChoice) ::
      Event.malloc (getAllocationSize inp.sizeChoice) true ::
      (fillEvents (getAllocationSize inp.sizeChoice) inp.byteChoice ++
        ((performAdvancedCpuTasks rt inp.task
            (filledBuffer (getAllocationSize inp.sizeChoice) inp.byteChoice)
            (getAllocationSize inp.sizeChoice)).events ++
          catchBlock threadId (performAdvancedCpuTasks rt inp.task
            (filledBuffer (getAllocationSize inp.sizeChoice) inp.byteChoice)
            (getAllocationSize inp.sizeChoice)).thrown)) := by
  simp [iterationHead, tryBlock, h]

/-- What the part of an iteration before the `finally:` block contains: one
size draw, one `std::malloc` call, no `std::free` call, no delay, and no line on
`std::cout` other than the checksum line of the matrix workload. -/
theorem iterationHead_contents (rt : Runtime) (threadId : Int) (inp : IterationInputs) :
    sizesDrawn (iterationHead rt threadId inp) = [getAllocationSize inp.sizeChoice] ∧
    mallocCalls (iterationHead rt threadId inp) =
      [(getAllocationSize inp.sizeChoice, inp.mallocOk)] ∧
    freeCalls (iterationHead rt threadId inp) = 0 ∧
    delaysDone (iterationHead rt threadId inp) = [] ∧
    (coutLines (iterationHead rt threadId inp) = [] ∨
      coutLines (iterationHead rt threadId inp) = ["Matrix multiplication checksum: -1"]) := by
  cases h : inp.mallocOk with
  | false =>
    rw [iterationHead_of_malloc_null rt threadId inp h]
    simp [sizesDrawn, mallocCalls, freeCalls, delaysDone, coutLines]
  | true =>
    rw [iterationHead_of_malloc_ok rt threadId inp h]
    obtain ⟨w, -, hev, hth⟩ := performAdvancedCpuTasks_cases rt inp.task
      (filledBuffer (getAllocationSize inp.sizeChoice) inp.byteChoice)
      (getAllocationSize inp.sizeChoice)
    have hfill1 := fillEvents_filterMap (fun ev => match ev with
      | Event.sizeDrawn size => some size
      | _ => none) (fun _ _ => rfl) (getAllocationSize inp.sizeChoice) inp.byteChoice
    have hfill2 := fillEvents_filterMap (fun ev => match ev with
      | Event.malloc size ok => some (size, ok)
      | _ => none) (fun _ _ => rfl) (getAllocationSize inp.sizeChoice) inp.byteChoice
    have hfill3 := fillEvents_count_free (getAllocationSize inp.sizeChoice) inp.byteChoice
    have hfill4 := fillEvents_filterMap (fun ev => match ev with
      | Event.delay ms => some ms
      | _ => none) (fun _ _ => rfl) (getAllocationSize inp.sizeChoice) inp.byteChoice
    have hfill5 := fillEvents_filterMap (fun ev => match ev with
      | Event.cout line => some line
      | _ => none) (fun _ _ => rfl) (getAllocationSize inp.sizeChoice) inp.byteChoice
    rcases hev with hev | hev <;> rcases hth with hth | ⟨what, hth⟩ <;>
      simp [sizesDrawn, mallocCalls, freeCalls, delaysDone, coutLines, hev, hth, catchBlock,
        hfill1, hfill2, hfill3, hfill4, hfill5]

theorem heldBuffers_append (a b : List Event) :
    heldBuffers (a ++ b) = heldBuffers a + heldBuffers b := by
  simp only [heldBuffers, mallocCalls, freeCalls, List.filterMap_append, List.filter_append,
    List.length_append, List.count_append]
  push_cast
  ring

theorem iteration_contents (rt : Runtime) (threadId : Int) (type : AllocationType)
    (inp : IterationInputs) :
    sizesDrawn (iteration rt threadId type inp) = [getAllocationSize inp.sizeChoice] ∧
    mallocCalls (iteration rt threadId type inp) =
      [(getAllocationSize inp.sizeChoice, inp.mallocOk)] ∧
    freeCalls (iteration rt threadId type inp) = (if inp.mallocOk = true then 1 else 0) ∧
    delaysDone (iteration rt threadId type inp) =
      [simulateAllocationPattern type inp.delayDraw] ∧
    (coutLines (iteration rt threadId type inp) = [] ∨
      coutLines (iteration rt threadId type inp) = ["Matrix multiplication checksum: -1"]) := by
  obtain ⟨h1, h2, h3, h4, h5⟩ := iterationHead_contents rt threadId inp
  rw [iteration_eq_head]
  simp only [sizesDrawn, mallocCalls, freeCalls, delaysDone, coutLines,
    List.filterMap_append, List.count_append] at h1 h2 h3 h4 h5 ⊢
  rw [h1, h2, h3, h4]
  cases h : inp.mallocOk <;> rcases h5 with h5 | h5 <;> simp [h5]

theorem heldBuffers_iteration (rt : Runtime) (threadId : Int) (type : AllocationType)
    (inp : IterationInputs) : heldBuffers (iteration rt threadId type inp) = 0 := by
  obtain ⟨-, h2, h3, -, -⟩ := iteration_contents rt threadId type inp
  unfold heldBuffers
  rw [h2, h3]
  cases inp.mallocOk <;> simp

/-! ## The loop and the thread -/

theorem threadLoop_eq_flatMap (rt : Runtime) (threadId : Int) (type : AllocationType)
    (inputs : Nat → IterationInputs) (n i : Nat) (h : ITERATIONS - i = n) :
    threadLoop rt threadId type inputs i =
      (List.range' i n).flatMap (fun j => iteration rt threadId type (inputs j)) := by
  induction n generalizing i with
  | zero =>
    rw [threadLoop]
    have : ¬ i < ITERATIONS := by omega
    simp [this]
  | succ n ih =>
    rw [threadLoop]
    have hi : i < ITERATIONS := by omega
    rw [if_pos hi, ih (i + 1) (by omega), List.range'_succ, List.flatMap_cons]

theorem threadWork_eq (rt : Runtime) (threadId : Int) (patternDraw : Nat)
    (inputs : Nat → IterationInputs) :
    threadWork rt threadId patternDraw inputs =
      Event.cout ("Thread " ++ toString threadId ++ " started with Allocation Pattern: "
          ++ (selectPattern patternDraw).name) ::
        ((List.range ITERATIONS).flatMap
            (fun i => iteration rt threadId (selectPattern patternDraw).type (inputs i)) ++
          [Event.cout ("Thread " ++ toString threadId ++ " completed.")]) := by
  unfold threadWork
  simp only
  rw [threadLoop_eq_flatMap rt threadId _ inputs ITERATIONS 0 rfl, List.range_eq_range']

theorem sizesDrawn_flatMap_iteration (rt : Runtime) (threadId : Int) (type : AllocationType)
    (inputs : Nat → IterationInputs) (l : List Nat) :
    sizesDrawn (l.flatMap (fun i => iteration rt threadId type (inputs i))) =
      l.map (fun i => getAllocationSize (inputs i).sizeChoice) := by
  induction l with
  | nil => rfl
  | cons i l ih =>
    have h := (iteration_contents rt threadId type (inputs i)).1
    simp only [sizesDrawn, List.flatMap_cons, List.filterMap_append, List.map_cons] at h ih ⊢
    rw [h, ih]
    rfl

theorem delaysDone_flatMap_iteration (rt : Runtime) (threadId : Int) (type : AllocationType)
    (inputs : Nat → IterationInputs) (l : List Nat) :
    delaysDone (l.flatMap (fun i => iteration rt threadId type (inputs i))) =
      l.map (fun i => simulateAllocationPattern type (inputs i).delayDraw) := by
  induction l with
  | nil => rfl
  | cons i l ih =>
    have h := (iteration_contents rt threadId type (inputs i)).2.2.2.1
    simp only [delaysDone, List.flatMap_cons, List.filterMap_append, List.map_cons] at h ih ⊢
    rw [h, ih]
    rfl

theorem heldBuffers_flatMap_iteration (rt : Runtime) (threadId : Int) (type : AllocationType)
    (inputs : Nat → IterationInputs) (l : List Nat) :
    heldBuffers (l.flatMap (fun i => iteration rt threadId type (inputs i))) = 0 := by
  induction l with
  | nil => rfl
  | cons i l ih =>
    rw [List.flatMap_cons, heldBuffers_append, heldBuffers_iteration, ih]
    rfl

theorem coutLines_flatMap_iteration (rt : Runtime) (threadId : Int) (type : AllocationType)
    (inputs : Nat → IterationInputs) (l : List Nat) :
    ∃ k, coutLines (l.flatMap (fun i => iteration rt threadId type (inputs i))) =
      List.replicate k "Matrix multiplication checksum: -1" := by
  induction l with
  | nil => exact ⟨0, rfl⟩
  | cons i l ih =>
    obtain ⟨k, hk⟩ := ih
    have h := (iteration_contents rt threadId type (inputs i)).2.2.2.2
    simp only [coutLines, List.flatMap_cons, List.filterMap_append] at h hk ⊢
    rw [hk]
    rcases h with h | h
    · exact ⟨k, by rw [h]; rfl⟩
    · exact ⟨k + 1, by rw [h]; rfl⟩

/-- The trace of an iteration whose workload, the matrix multiplication, raises
an exception: the handler reports it and the buffer is freed before the delay. -/
theorem iteration_of_workload_exception (rt : Runtime) (threadId : Int)
    (type : AllocationType) (inp : IterationInputs) (what : String)
    (hok : inp.mallocOk = true) (hsel : inp.task.random < double_0_33)
    (hthrown : inp.task.matrix.thrown = some what) :
    iteration rt threadId type inp =
      Event.sizeDrawn (getAllocationSize inp.sizeChoice) ::
      Event.malloc (getAllocationSize inp.sizeChoice) true ::
      (fillEvents (getAllocationSize inp.sizeChoice) inp.byteChoice ++
        [Event.run (Workload.matrixMultiplication 300),
         Event.cerr ("Thread " ++ toString threadId ++ " encountered an error: " ++ what),
         Event.free,
         Event.delay (simulateAllocationPattern type inp.delayDraw)]) := by
  rw [iteration_of_malloc_ok rt threadId type inp hok,
    performAdvancedCpuTasks_matrix rt inp.task _ _ hsel]
  simp [performMatrixMultiplication, hthrown, catchBlock]

/-! # The claims -/

/-- Claim C1: `naiveFibonacci(35)`, computed by the naive recursion (return `n`
when `n <= 1`, otherwise the sum of the two preceding values) in unsigned 64-bit
arithmetic, equals 9227465. -/
theorem naiveFibonacci_thirty_five : naiveFibonacci 35 = 9227465 :=
  naiveFibonacci_35

/-- Claim C2: for every `double` draw `r` (a value `m / 2 ^ e` with `m < 2 ^ 53`,
which every `double` in `[0, 1)` is), `performAdvancedCpuTasks` starts exactly one
workload: the matrix multiplication of dimension 300 if and only if `r < 0.33`,
the hashing of the buffer if and only if `0.33 ≤ r < 0.66`, and Fibonacci(35) if
and only if `r ≥ 0.66`, the thresholds read as the decimal numbers. -/
theorem performAdvancedCpuTasks_selection (rt : Runtime) (inp : TaskInputs)
    (buffer : List Nat) (size : Int) (m e : Nat) (hm : m < 2 ^ 53)
    (hr : inp.random = doubleValue m e) :
    (workloadsRun (performAdvancedCpuTasks rt inp buffer size).events).length = 1 ∧
    (workloadsRun (performAdvancedCpuTasks rt inp buffer size).events =
        [Workload.matrixMultiplication 300] ↔ inp.random < 33 / 100) ∧
    (workloadsRun (performAdvancedCpuTasks rt inp buffer size).events =
        [Workload.sha256Hash buffer size] ↔
      33 / 100 ≤ inp.random ∧ inp.random < 66 / 100) ∧
    (workloadsRun (performAdvancedCpuTasks rt inp buffer size).events =
        [Workload.fibonacci 35] ↔ 66 / 100 ≤ inp.random) := by
  have h33 := doubleValue_lt_0_33 m e hm
  have h66 := doubleValue_lt_0_66 m e hm
  rw [← hr] at h33 h66
  rw [workloadsRun_performAdvancedCpuTasks]
  simp only [h33, h66]
  refine ⟨rfl, ?_, ?_, ?_⟩
  · by_cases h1 : inp.random < 33 / 100
    · simp [h1]
    · by_cases h2 : inp.random < 66 / 100 <;> simp [h1, h2]
  · by_cases h1 : inp.random < 33 / 100
    · simp [h1]
    · by_cases h2 : inp.random < 66 / 100
      · simp [h1, h2, not_lt.mp h1]
      · simp [h1, h2]
  · by_cases h1 : inp.random < 33 / 100
    · have h2 : inp.random < 66 / 100 := lt_trans h1 (by norm_num)
      simp [h1, h2]
    · by_cases h2 : inp.random < 66 / 100
      · simp [h1, h2]
      · simp [h1, h2, not_lt.mp h2]

/-- Witness of claim C2 at the draw `r = 0.5`, which selects the hashing. -/
theorem performAdvancedCpuTasks_selection_witness :
    (1 < 2 ^ 53 ∧ sampleTask.random = doubleValue 1 1) ∧
    ((workloadsRun (performAdvancedCpuTasks sampleRuntime sampleTask [1, 2] 2).events).length
        = 1 ∧
      (workloadsRun (performAdvancedCpuTasks sampleRuntime sampleTask [1, 2] 2).events =
        [Workload.matrixMultiplication 300] ↔ sampleTask.random < 33 / 100) ∧
      (workloadsRun (performAdvancedCpuTasks sampleRuntime sampleTask [1, 2] 2).events =
        [Workload.sha256Hash [1, 2] 2] ↔
        33 / 100 ≤ sampleTask.random ∧ sampleTask.random < 66 / 100) ∧
      (workloadsRun (performAdvancedCpuTasks sampleRuntime sampleTask [1, 2] 2).events =
        [Workload.fibonacci 35] ↔ 66 / 100 ≤ sampleTask.random)) :=
  ⟨⟨by norm_num, rfl⟩,
    performAdvancedCpuTasks_selection sampleRuntime sampleTask [1, 2] 2 1 1 (by norm_num) rfl⟩

/-- Claim C3: for every allocation pattern and every generator output `x` (in
particular every 32-bit one), the delay applied by `simulateAllocationPattern`
follows the policy of the pattern: Sequential sleeps exactly 10 ms, Burst does
not sleep, Random sleeps `(x mod 15) + 5` ms, at least 5 and less than 20. -/
theorem simulateAllocationPattern_policy (x : Nat) :
    simulateAllocationPattern AllocationType.Sequential x = some 10 ∧
    simulateAllocationPattern AllocationType.Burst x = none ∧
    simulateAllocationPattern AllocationType.Random x = some (x % 15 + 5) ∧
    5 ≤ x % 15 + 5 ∧ x % 15 + 5 < 20 := by
  refine ⟨rfl, rfl, rfl, ?_, ?_⟩ <;> omega

/-- Claim C4: for every choice of the generator, the size returned by
`getAllocationSize` lies in the closed range from 1 MiB to 20 MiB, whose bounds
are the constants `MIN_ALLOCATION_SIZE = 1048576` and
`MAX_ALLOCATION_SIZE = 20971520`; both constants, and the intermediate products
`1 * 1024` and `20 * 1024`, fit a signed 32-bit `int`. -/
theorem getAllocationSize_in_range (k : Nat) :
    (1048576 ≤ getAllocationSize k ∧ getAllocationSize k ≤ 20971520) ∧
    (MIN_ALLOCATION_SIZE ≤ getAllocationSize k ∧ getAllocationSize k ≤ MAX_ALLOCATION_SIZE) ∧
    MIN_ALLOCATION_SIZE = 1048576 ∧ MAX_ALLOCATION_SIZE = 20971520 ∧
    fitsInt32 MIN_ALLOCATION_SIZE ∧ fitsInt32 MAX_ALLOCATION_SIZE ∧
    fitsInt32 (1 * 1024) ∧ fitsInt32 (20 * 1024) := by
  have h := getAllocationSize_mem k
  refine ⟨h, ?_, MIN_ALLOCATION_SIZE_eq, MAX_ALLOCATION_SIZE_eq, by decide, by decide,
    by decide, by decide⟩
  rw [MIN_ALLOCATION_SIZE_eq, MAX_ALLOCATION_SIZE_eq]
  exact h

/-- Claim C5: in an iteration of `threadWork` in which `std::malloc` returns
null, the trace is the size draw, the one failed `std::malloc` call, one line
"Thread N encountered an error: <message>" on `std::cerr` with the id of the
thread, and the pattern-driven delay: no workload is started, no byte is
stored, the allocation is not retried, `std::free` is not called, and the delay
is the last step. -/
theorem iteration_on_allocation_failure (rt : Runtime) (threadId : Int)
    (type : AllocationType) (inp : IterationInputs) (h : inp.mallocOk = false) :
    iteration rt threadId type inp =
      [Event.sizeDrawn (getAllocationSize inp.sizeChoice),
       Event.malloc (getAllocationSize inp.sizeChoice) false,
       Event.cerr ("Thread " ++ toString threadId ++ " encountered an error: "
         ++ rt.badAllocWhat),
       Event.delay (simulateAllocationPattern type inp.delayDraw)] ∧
    workloadsRun (iteration rt threadId type inp) = [] ∧
    storesDone (iteration rt threadId type inp) = [] ∧
    cerrLines (iteration rt threadId type inp) =
      ["Thread " ++ toString threadId ++ " encountered an error: " ++ rt.badAllocWhat] ∧
    mallocCalls (iteration rt threadId type inp) =
      [(getAllocationSize inp.sizeChoice, false)] ∧
    freeCalls (iteration rt threadId type inp) = 0 ∧
    delaysDone (iteration rt threadId type inp) =
      [simulateAllocationPattern type inp.delayDraw] ∧
    (iteration rt threadId type inp).getLast? =
      some (Event.delay (simulateAllocationPattern type inp.delayDraw)) := by
  rw [iteration_of_malloc_null rt threadId type inp h]
  simp [workloadsRun, storesDone, cerrLines, mallocCalls, freeCalls, delaysDone]

/-- Witness of claim C5: thread 3 with the Random pattern and a failing
`std::malloc`. -/
theorem iteration_on_allocation_failure_witness :
    sampleFailure.mallocOk = false ∧
    iteration sampleRuntime 3 AllocationType.Random sampleFailure =
      [Event.sizeDrawn 1048583, Event.malloc 1048583 false,
       Event.cerr "Thread 3 encountered an error: std::bad_alloc",
       Event.delay (some 16)] :=
  ⟨rfl, (iteration_on_allocation_failure sampleRuntime 3 AllocationType.Random
    sampleFailure rfl).1⟩

/-- Claim C6: in every iteration of `threadWork`, whatever `std::malloc` returns
and whether or not the workload raises an exception, the release step runs once,
after the `try` block and its handler and before the delay: `std::free` is
called exactly once when a buffer was acquired and not at all when `std::malloc`
returned null, nothing before the release step frees or delays, the iteration
ends holding no buffer, and no buffer is held when any iteration starts. -/
theorem iteration_releases_buffer (rt : Runtime) (threadId : Int) (type : AllocationType)
    (inp : IterationInputs) (patternDraw : Nat) (inputs : Nat → IterationInputs) :
    iteration rt threadId type inp =
      iterationHead rt threadId inp ++
        ((if inp.mallocOk = true then [Event.free] else []) ++
          [Event.delay (simulateAllocationPattern type inp.delayDraw)]) ∧
    mallocCalls (iterationHead rt threadId inp) =
      [(getAllocationSize inp.sizeChoice, inp.mallocOk)] ∧
    freeCalls (iterationHead rt threadId inp) = 0 ∧
    delaysDone (iterationHead rt threadId inp) = [] ∧
    freeCalls (iteration rt threadId type inp) = (if inp.mallocOk = true then 1 else 0) ∧
    heldBuffers (iteration rt threadId type inp) = 0 ∧
    (∀ i : Fin ITERATIONS, ∃ before after,
      threadWork rt threadId patternDraw inputs =
        before ++ (iteration rt threadId (selectPattern patternDraw).type (inputs i) ++ after) ∧
      heldBuffers before = 0) := by
  obtain ⟨-, h2, h3, h4, -⟩ := iterationHead_contents rt threadId inp
  refine ⟨iteration_eq_head rt threadId type inp, h2, h3, h4,
    (iteration_contents rt threadId type inp).2.2.1,
    heldBuffers_iteration rt threadId type inp, ?_⟩
  intro i
  have hsplit : List.range ITERATIONS =
      List.range i ++ (i.val :: List.range' (i + 1) (ITERATIONS - (i + 1))) := by
    have hi := i.isLt
    rw [List.range_eq_range', List.range_eq_range', ← List.range'_succ]
    have h := List.range'_append 0 i (ITERATIONS - (i + 1) + 1) 1
    simp only [Nat.zero_add, Nat.one_mul] at h
    rw [h]
    congr 1
    omega
  refine ⟨Event.cout ("Thread " ++ toString threadId ++ " started with Allocation Pattern: "
      ++ (selectPattern patternDraw).name) ::
      (List.range i).flatMap
        (fun j => iteration rt threadId (selectPattern patternDraw).type (inputs j)),
    (List.range' (i + 1) (ITERATIONS - (i + 1))).flatMap
        (fun j => iteration rt threadId (selectPattern patternDraw).type (inputs j)) ++
      [Event.cout ("Thread " ++ toString threadId ++ " completed.")], ?_, ?_⟩
  · rw [threadWork_eq, hsplit, List.flatMap_append, List.flatMap_cons]
    simp only [List.cons_append, List.append_assoc]
  · have hcons : ∀ (line : String) (t : List Event),
        heldBuffers (Event.cout line :: t) = heldBuffers t := by
      intro line t
      simp [heldBuffers, mallocCalls, freeCalls]
    rw [hcons, heldBuffers_flatMap_iteration]

/-- Claim C7: for every thread id and all outcomes of the allocations,
`threadWork` returns, and its trace is one "started" line, then the traces of
exactly `ITERATIONS = 500` iterations, then one "completed" line; every
iteration draws one size and applies one pattern-driven delay, and the only
lines on `std::cout` are the "started" line first, the "completed" line last,
and checksum lines of the matrix workload between them. -/
theorem threadWork_runs_all_iterations (rt : Runtime) (threadId : Int) (patternDraw : Nat)
    (inputs : Nat → IterationInputs) :
    ITERATIONS = 500 ∧
    threadWork rt threadId patternDraw inputs =
      Event.cout ("Thread " ++ toString threadId ++ " started with Allocation Pattern: "
          ++ (selectPattern patternDraw).name) ::
        ((List.range 500).flatMap
            (fun i => iteration rt threadId (selectPattern patternDraw).type (inputs i)) ++
          [Event.cout ("Thread " ++ toString threadId ++ " completed.")]) ∧
    (∀ i, sizesDrawn (iteration rt threadId (selectPattern patternDraw).type (inputs i)) =
        [getAllocationSize (inputs i).sizeChoice] ∧
      delaysDone (iteration rt threadId (selectPattern patternDraw).type (inputs i)) =
        [simulateAllocationPattern (selectPattern patternDraw).type (inputs i).delayDraw]) ∧
    (sizesDrawn (threadWork rt threadId patternDraw inputs)).length = 500 ∧
    (delaysDone (threadWork rt threadId patternDraw inputs)).length = 500 ∧
    (∃ k, coutLines (threadWork rt threadId patternDraw inputs) =
      ("Thread " ++ toString threadId ++ " started with Allocation Pattern: "
          ++ (selectPattern patternDraw).name) ::
        (List.replicate k "Matrix multiplication checksum: -1" ++
          ["Thread " ++ toString threadId ++ " completed."])) := by
  have hw := threadWork_eq rt threadId patternDraw inputs
  have hI : ITERATIONS = 500 := rfl
  rw [hI] at hw
  have hs := sizesDrawn_flatMap_iteration rt threadId (selectPattern patternDraw).type inputs
    (List.range 500)
  have hd := delaysDone_flatMap_iteration rt threadId (selectPattern patternDraw).type inputs
    (List.range 500)
  obtain ⟨k, hk⟩ := coutLines_flatMap_iteration rt threadId (selectPattern patternDraw).type
    inputs (List.range 500)
  refine ⟨rfl, hw, ?_, ?_, ?_, ⟨k, ?_⟩⟩
  · intro i
    exact ⟨(iteration_contents _ _ _ _).1, (iteration_contents _ _ _ _).2.2.2.1⟩
  · rw [hw]
    simp only [sizesDrawn, List.filterMap_cons, List.filterMap_append] at hs ⊢
    rw [hs]
    simp
  · rw [hw]
    simp only [delaysDone, List.filterMap_cons, List.filterMap_append] at hd ⊢
    rw [hd]
    simp
  · rw [hw]
    simp only [coutLines, List.filterMap_cons, List.filterMap_append] at hk ⊢
    rw [hk]
    simp

/-- Claim C8, counterexample: over the `2 ^ 32` generator outputs the delay of
5 ms is produced by 286331154 outputs and the delay of 6 ms by 286331153, so the
fifteen delays are not produced equally often. -/
theorem outputsWithDelay_not_uniform :
    outputsWithDelay 5 = 286331154 ∧ outputsWithDelay 6 = 286331153 ∧
    outputsWithDelay 5 ≠ outputsWithDelay 6 := by
  have h5 := outputsWithDelay_add_five 0 (by norm_num)
  have h6 := outputsWithDelay_add_five 1 (by norm_num)
  norm_num at h5 h6
  rw [h5, h6]
  exact ⟨rfl, rfl, by norm_num⟩

/-- Claim C8, amended: over the `2 ^ 32` generator outputs `x`, each delay `d`
with `5 ≤ d < 20` is produced by `(x mod 15) + 5` for 286331153 outputs, except
the delay of 5 ms, which is produced for 286331154 outputs. -/
theorem outputsWithDelay_eq (d : Nat) (h5 : 5 ≤ d) (h20 : d < 20) :
    outputsWithDelay d = if d = 5 then 286331154 else 286331153 := by
  obtain ⟨r, rfl⟩ : ∃ r, d = r + 5 := ⟨d - 5, by omega⟩
  rw [outputsWithDelay_add_five r (by omega)]
  by_cases hr : r = 0
  · simp [hr]
  · simp [hr]

/-- Witness of the amended claim C8 at the delay of 7 ms. -/
theorem outputsWithDelay_eq_witness :
    (5 ≤ 7 ∧ 7 < 20) ∧ outputsWithDelay 7 = 286331153 :=
  ⟨⟨by decide, by decide⟩, outputsWithDelay_eq 7 (by decide) (by decide)⟩

/-- Claim C9, counterexample: when the generator selects the last of the
19922945 values, `getAllocationSize` returns 20971520, which is
`MAX_ALLOCATION_SIZE` and not below it. -/
theorem getAllocationSize_attains_max :
    getAllocationSize 19922944 = 20971520 ∧
    ¬ (getAllocationSize 19922944 < MAX_ALLOCATION_SIZE) := by
  constructor <;> decide

/-- Claim C9, amended: the size returned by `getAllocationSize` lies between
1 MiB and 20 MiB with both bounds inclusive: the distribution can return 1048576
and it can return 20971520. -/
theorem getAllocationSize_closed_range :
    (∀ k, 1048576 ≤ getAllocationSize k ∧ getAllocationSize k ≤ 20971520) ∧
    (∃ k, getAllocationSize k = 1048576) ∧ (∃ k, getAllocationSize k = 20971520) :=
  ⟨getAllocationSize_mem, ⟨0, by decide⟩, ⟨19922944, by decide⟩⟩

/-- Claim C10: for every buffer and every digest that `SHA256` stores,
`performSha256Hash` writes a line exactly when the checksum of the thirty-two
digest bytes equals `ULLONG_MAX = 2 ^ 64 - 1`, and that never happens: the
accumulation in `unsigned long long` equals the plain sum of the bytes (it never
wraps), the sum is at most `32 * 255 = 8160 < 2 ^ 64 - 1`, and no line is
written. -/
theorem performSha256Hash_never_prints (rt : Runtime) (buffer : List Nat) (size : Int) :
    (sha256Digest rt buffer size).length = 32 ∧
    sha256Checksum (sha256Digest rt buffer size) = (sha256Digest rt buffer size).sum ∧
    sha256Checksum (sha256Digest rt buffer size) ≤ 32 * 255 ∧
    32 * 255 = 8160 ∧ 8160 < ULLONG_MAX ∧ ULLONG_MAX = 2 ^ 64 - 1 ∧
    (coutLines (performSha256Hash rt buffer size).events ≠ [] ↔
      sha256Checksum (sha256Digest rt buffer size) = ULLONG_MAX) ∧
    sha256Checksum (sha256Digest rt buffer size) ≠ ULLONG_MAX ∧
    coutLines (performSha256Hash rt buffer size).events = [] ∧
    (performSha256Hash rt buffer size).events =
      [Event.run (Workload.sha256Hash buffer size)] := by
  have hne := sha256Checksum_ne_max rt buffer size
  have hsum := sha256Checksum_digest rt buffer size
  have hle := sha256Digest_sum_le rt buffer size
  have hout : coutLines (performSha256Hash rt buffer size).events = [] := by
    rw [performSha256Hash_eq]; rfl
  refine ⟨sha256Digest_length rt buffer size, hsum, ?_, by norm_num, by decide, rfl, ?_, hne,
    hout, ?_⟩
  · rw [hsum]; exact hle
  · constructor
    · intro h; exact absurd hout h
    · intro h; exact absurd h hne
  · rw [performSha256Hash_eq]

end CSharpVCpp
